import Mathlib

/-!
Verification of `js4cpp::Array<T>` (src/array.hpp) against its specification.

The C++ class wraps a `std::vector<T>` (field `data_`); the vector is embedded
as a `List T`. Methods that mutate the receiver are embedded as functions
returning the new receiver state; methods whose C++ body performs an
out-of-bounds vector access (undefined behavior) return `Option`, with `none`
marking the undefined case. `size_t` indices are embedded as `Nat`, `ssize_t`
as `Int`, and C++ `%` on `ssize_t` (truncation toward zero) as `Int.tmod`.
Default-constructed `T` values (`std::vector::resize`) are embedded via
`Inhabited T`.
-/

namespace js4cpp

/-- Embedding of `js4cpp::Array<T>`: the single data member is
`std::vector<T> data_` (src/array.hpp line 207). -/
structure Array (T : Type) where
  data_ : List T
  deriving DecidableEq

namespace Array

variable {T : Type}

/-- `Array<T>::length()` — `return data_.size();` (lines 341-344). -/
def length (a : Array T) : Nat := a.data_.length

/-- `Array<T>::push(value)` — `data_.push_back(value);` (lines 241-244). -/
def push (a : Array T) (value : T) : Array T := ⟨a.data_ ++ [value]⟩

/-- `Array<T>::unshift(value)` — `data_.insert(data_.begin(), value);`
(lines 246-249). -/
def unshift (a : Array T) (value : T) : Array T := ⟨value :: a.data_⟩

/-- `Array<T>::pop()` (lines 251-256): reads `data_.back()`, then
`data_.pop_back()`, and returns the read element together with the new
receiver state. On an empty vector `back()` is an out-of-bounds read
(undefined behavior), embedded as `none`. No exception is raised. -/
def pop (a : Array T) : Option (T × Array T) :=
  match a.data_.getLast? with
  | Option.none => Option.none
  | Option.some x => Option.some (x, ⟨a.data_.dropLast⟩)

/-- `Array<T>::shift()` (lines 258-263): reads `data_.front()`, then
`data_.erase(data_.begin())`. On an empty vector `front()` is an
out-of-bounds read (undefined behavior), embedded as `none`. -/
def shift (a : Array T) : Option (T × Array T) :=
  match a.data_ with
  | [] => Option.none
  | x :: rest => Option.some (x, ⟨rest⟩)

/-- `std::vector<T>::resize(n)`: keeps the first `n` elements and appends
default-constructed elements until the size is `n`. -/
def resize [Inhabited T] (l : List T) (n : Nat) : List T :=
  l.take n ++ List.replicate (n - l.length) default

/-- `Array<T>::operator[](i)` (lines 217-232) in the default configuration
(`INTOLERANT_TO_OUT_OF_RANGE_INDEXES` not defined): if `i >= data_.size()`
then `data_.resize(i + 1)`; then `return data_[i];`. The embedding returns
the value the reference designates together with the receiver state after
the call. -/
def opIndex [Inhabited T] (a : Array T) (i : Nat) : T × Array T :=
  let d := if a.data_.length ≤ i then resize a.data_ (i + 1) else a.data_
  (d.getD i default, ⟨d⟩)

/-- Writing `v` through the reference returned by `operator[]`
(`arr[i] = v`): the slot `i` of the post-call state receives `v`. -/
def opIndexWrite [Inhabited T] (a : Array T) (i : Nat) (v : T) : Array T :=
  ⟨(opIndex a i).2.data_.set i v⟩

/-- `Array<T>::operator[](i)` with `INTOLERANT_TO_OUT_OF_RANGE_INDEXES`
defined: no resize is performed and `data_[i]` for `i >= data_.size()` is an
out-of-bounds access (undefined behavior, embedded as `none`); no exception
of any kind is raised. -/
def opIndexIntolerant [Inhabited T] (a : Array T) (i : Nat) : Option (T × Array T) :=
  if i < a.data_.length then Option.some (a.data_.getD i default, a) else Option.none

/-- `Array<T>::slice(begin, end)` (lines 270-291). `ssize_t` arithmetic is
embedded as `Int`; C++ `%` truncates toward zero, i.e. `Int.tmod`. The final
`Array<T>(data_.begin() + begin, data_.begin() + end)` copies the element
range `[begin, end)`. -/
def slice (a : Array T) (begin_ end_ : Int) : Array T :=
  let length : Int := a.data_.length
  if begin_ ≥ length ∨ begin_ < -length ∨ end_ ≥ length ∨ end_ < -length then
    ⟨[]⟩
  else
    let b := Int.tmod (length + begin_) length
    let e := Int.tmod (length + end_) length
    if e < b then ⟨[]⟩
    else ⟨(a.data_.drop b.toNat).take (e - b).toNat⟩

/-- The one-argument call `a.slice(begin)`: the declaration
`Array<T> slice(ssize_t begin, ssize_t end = 0) const` (line 131) defaults
the second argument to `0`. -/
def slice1 (a : Array T) (begin_ : Int) : Array T := slice a begin_ 0

/-- State-passing view of the method call `a.slice(begin, end)`: the method
is declared `const` and its body only reads `data_` (it builds a fresh
`Array` from iterators), so the receiver state after the call is the
receiver state before it. -/
def sliceCall (a : Array T) (begin_ end_ : Int) : Array T × Array T :=
  (slice a begin_ end_, a)

/-- The slice policy as the spec states it (section 4.4): arguments outside
`[-length, length)` before normalization give an empty sequence; a negative
index `k` normalizes to `length + k`; after normalization `end <= begin`
gives an empty sequence; otherwise the result copies `[begin, end)` in
order. -/
def sliceSpec (a : Array T) (begin_ end_ : Int) : Array T :=
  let len : Int := a.data_.length
  if begin_ < -len ∨ begin_ ≥ len ∨ end_ < -len ∨ end_ ≥ len then
    ⟨[]⟩
  else
    let b := if begin_ < 0 then len + begin_ else begin_
    let e := if end_ < 0 then len + end_ else end_
    if e ≤ b then ⟨[]⟩
    else ⟨(a.data_.drop b.toNat).take (e - b).toNat⟩

/-- Two-argument `reduce` overload (lines 336-339):
`std::accumulate(data_.begin() + startFrom, data_.end(), initialValue,
callback)`, a left fold over the elements from index `startFrom` on. -/
def reduce2 (a : Array T) (callback : T → T → T) (initialValue : T) (startFrom : Nat) : T :=
  (a.data_.drop startFrom).foldl callback initialValue

/-- No-initial `reduce` overload (lines 331-334):
`return reduce(callback, data_[0], 1);`. On an empty vector `data_[0]` is an
out-of-bounds read (undefined behavior), embedded as `none`; no exception is
raised. -/
def reduce1 (a : Array T) (callback : T → T → T) : Option T :=
  match a.data_ with
  | [] => Option.none
  | x :: _ => Option.some (reduce2 a callback x 1)

/-- Modelled from the spec: no definition of `Array<T>::some` appears in
src/array.hpp; only its caller exists (src/array.test.hpp, `testSome`).
Spec section 4.5: `some(condition) -> bool`: true iff `condition` holds for
at least one element. -/
def some (a : Array T) (condition : T → Bool) : Bool :=
  a.data_.any condition

/-- The ten-element fixture of the test suite (src/array.test.hpp `setUp`):
`Array<int>(10)` filled by `forEach` with a running counter, i.e. the
sequence `[0,1,...,9]`. -/
def arr10 : Array Int := ⟨[0, 1, 2, 3, 4, 5, 6, 7, 8, 9]⟩

end Array

end js4cpp

namespace js4cpp

namespace Array

/-- Normalization arithmetic of `slice`: for an index `x` in `[-len, len)`
with `len > 0`, the C++ expression `(len + x) % len` (truncated remainder)
equals `len + x` when `x` is negative and `x` otherwise. -/
theorem tmod_norm {len x : Int} (h0 : 0 < len) (h1 : -len ≤ x) (h2 : x < len) :
    Int.tmod (len + x) len = if x < 0 then len + x else x := by
  rw [Int.tmod_eq_emod (by omega) (by omega)]
  by_cases hx : x < 0
  · rw [if_pos hx]
    exact Int.emod_eq_of_lt (by omega) (by omega)
  · rw [if_neg hx]
    have hx0 : 0 ≤ x := by omega
    have hr : len + x = x + len * 1 := by ring
    rw [hr, Int.add_mul_emod_self_left]
    exact Int.emod_eq_of_lt hx0 h2

/-- The source `slice` computes exactly the spec-side policy `sliceSpec`:
the two differ only in how they write the wraparound normalization
(`(len + k) % len` versus an if on the sign of `k`) and in the empty test
(`end < begin` versus `end <= begin`, which agree because an equal pair
copies the empty range). -/
theorem slice_eq_sliceSpec {T : Type} (a : Array T) (b e : Int) :
    slice a b e = sliceSpec a b e := by
  unfold slice sliceSpec
  dsimp only
  by_cases hg : b ≥ (a.data_.length : Int) ∨ b < -(a.data_.length : Int) ∨
      e ≥ (a.data_.length : Int) ∨ e < -(a.data_.length : Int)
  · have hg2 : b < -(a.data_.length : Int) ∨ b ≥ (a.data_.length : Int) ∨
        e < -(a.data_.length : Int) ∨ e ≥ (a.data_.length : Int) := by omega
    rw [if_pos hg, if_pos hg2]
  · have hg2 : ¬(b < -(a.data_.length : Int) ∨ b ≥ (a.data_.length : Int) ∨
        e < -(a.data_.length : Int) ∨ e ≥ (a.data_.length : Int)) := by omega
    rw [if_neg hg, if_neg hg2]
    push_neg at hg
    obtain ⟨hb1, hb2, he1, he2⟩ := hg
    have h0 : (0 : Int) < (a.data_.length : Int) := by omega
    rw [tmod_norm h0 hb2 hb1, tmod_norm h0 he2 he1]
    set b' := if b < 0 then (a.data_.length : Int) + b else b with hb'
    set e' := if e < 0 then (a.data_.length : Int) + e else e with he'
    by_cases hlt : e' < b'
    · rw [if_pos hlt, if_pos (le_of_lt hlt)]
    · rw [if_neg hlt]
      by_cases hle : e' ≤ b'
      · rw [if_pos hle]
        have heq : e' - b' = 0 := by omega
        rw [heq]
        simp
      · rw [if_neg hle]

/-- For a nonempty receiver, every `slice` result is strictly shorter than
the receiver: both normalized bounds land in `[0, length - 1]`, so at most
`length - 1` elements are copied. -/
theorem slice_length_lt {T : Type} (a : Array T) (b e : Int) (h : 1 ≤ a.length) :
    (slice a b e).length < a.length := by
  rw [slice_eq_sliceSpec]
  unfold sliceSpec length at *
  dsimp only
  by_cases hg : b < -(a.data_.length : Int) ∨ b ≥ (a.data_.length : Int) ∨
      e < -(a.data_.length : Int) ∨ e ≥ (a.data_.length : Int)
  · rw [if_pos hg]
    simp only [List.length_nil]
    omega
  · rw [if_neg hg]
    push_neg at hg
    obtain ⟨hb1, hb2, he1, he2⟩ := hg
    set b' := if b < 0 then (a.data_.length : Int) + b else b with hb'
    set e' := if e < 0 then (a.data_.length : Int) + e else e with he'
    have hbb : 0 ≤ b' := by
      rw [hb']
      split <;> omega
    have hee : e' ≤ (a.data_.length : Int) - 1 := by
      rw [he']
      split <;> omega
    by_cases hle : e' ≤ b'
    · rw [if_pos hle]
      simp only [List.length_nil]
      omega
    · rw [if_neg hle]
      show ((a.data_.drop b'.toNat).take (e' - b').toNat).length < a.data_.length
      rw [List.length_take, List.length_drop]
      omega

/-- In the auto-extending configuration, an out-of-range `operator[]` call
appends default-constructed elements up to slot `i`: the post-call data is
the old data followed by `i + 1 - length` defaults, and the value the
returned reference designates is the default at slot `i`. -/
theorem opIndex_extend_data {T : Type} [Inhabited T] (a : Array T) (i : Nat)
    (h : a.data_.length ≤ i) :
    (opIndex a i).2.data_ = a.data_ ++ List.replicate (i + 1 - a.data_.length) default ∧
    (opIndex a i).1 = default := by
  unfold opIndex resize
  dsimp only
  rw [if_pos h, List.take_of_length_le (by omega)]
  refine ⟨rfl, ?_⟩
  rw [List.getD_eq_getElem?_getD, List.getElem?_append, if_neg (by omega),
    List.getElem?_replicate, if_pos (by omega)]
  rfl

end Array

end js4cpp

namespace js4cpp

namespace Array

/-- C1: contrary to the claim, on a zero-length sequence `pop()`, `shift()`,
and the no-initial `reduce()` do not fail with an `EmptyContainerError` (no
such type exists in the code): each performs an out-of-bounds read of the
empty vector (`back()`, `front()`, `data_[0]`), which is undefined behavior,
embedded here as `none`. -/
theorem C1_empty_ops_no_error :
    pop (⟨[]⟩ : Array Int) = Option.none ∧
    shift (⟨[]⟩ : Array Int) = Option.none ∧
    reduce1 (⟨[]⟩ : Array Int) (fun x y => x + y) = Option.none :=
  ⟨rfl, rfl, rfl⟩

/-- C2: contrary to the claim (and to the declaration's own doc comment and
the unregistered `testSlice` test), the defaulted second argument of `slice`
is `0`, not the length: on the fixture `[0,...,9]`, `slice(5)` and
`slice(-3)` both normalize `end` to `0`, which is at most the normalized
`begin`, so both return an empty sequence instead of the claimed
`[5,6,7,8,9]` and `[7,8,9]`. -/
theorem C2_slice_default_end_zero :
    slice1 arr10 5 = ⟨[]⟩ ∧ (slice1 arr10 5).length = 0 ∧
    slice1 arr10 (-3) = ⟨[]⟩ ∧ (slice1 arr10 (-3)).length = 0 :=
  ⟨by decide, by decide, by decide, by decide⟩

/-- C3: `slice` implements exactly the claimed range policy: arguments
outside `[-length, length)` before normalization yield an empty sequence
(not an error); a negative index `k` normalizes to `length + k`; after
normalization `end <= begin` yields an empty sequence; otherwise the result
copies `[begin, end)` in order. Concretely on `[0,...,9]`: `slice(1,-1)`
has length 8, `slice(-7,7) = [3,4,5,6]`, and `slice(6,5)`, `slice(-1,1)`
are empty. -/
theorem C3_slice_range_policy :
    (∀ (T : Type) (a : Array T) (b e : Int), slice a b e = sliceSpec a b e) ∧
    (slice arr10 1 (-1)).length = 8 ∧
    slice arr10 (-7) 7 = ⟨[3, 4, 5, 6]⟩ ∧
    slice arr10 6 5 = ⟨[]⟩ ∧
    slice arr10 (-1) 1 = ⟨[]⟩ :=
  ⟨fun _ a b e => slice_eq_sliceSpec a b e, by decide, by decide, by decide, by decide⟩

/-- C4: for `i ≥ length`, the reference-returning indexing form auto-extends
the sequence: the length becomes `i + 1`, the intervening slots
`length..i-1` hold default-constructed values, the returned reference
designates the now-live slot `i`, and writing through it stores into that
slot. -/
theorem C4_opIndex_auto_extends (T : Type) [Inhabited T] (a : Array T) (i : Nat)
    (h : a.length ≤ i) :
    (opIndex a i).2.length = i + 1 ∧
    (∀ j, a.length ≤ j → j < i → (opIndex a i).2.data_[j]? = Option.some default) ∧
    Option.some (opIndex a i).1 = (opIndex a i).2.data_[i]? ∧
    (∀ v, (opIndexWrite a i v).data_[i]? = Option.some v) := by
  have h' : a.data_.length ≤ i := h
  obtain ⟨hdata, hval⟩ := opIndex_extend_data a i h'
  have hlen : (opIndex a i).2.data_.length = i + 1 := by
    rw [hdata, List.length_append, List.length_replicate]
    omega
  refine ⟨hlen, ?_, ?_, ?_⟩
  · intro j hj1 hj2
    have hj1' : a.data_.length ≤ j := hj1
    rw [hdata, List.getElem?_append, if_neg (by omega), List.getElem?_replicate,
      if_pos (by omega)]
  · rw [hval, hdata, List.getElem?_append, if_neg (by omega), List.getElem?_replicate,
      if_pos (by omega)]
  · intro v
    unfold opIndexWrite
    rw [List.getElem?_set_self (by rw [hlen]; omega)]

/-- Witness for C4: the one-element sequence `[0]` indexed at `3` extends to
length 4 with default-filled slots. -/
theorem C4_opIndex_auto_extends_witness :
    (⟨[(0 : Int)]⟩ : Array Int).length ≤ 3 ∧
    ((opIndex (⟨[(0 : Int)]⟩ : Array Int) 3).2.length = 3 + 1 ∧
      (∀ j, (⟨[(0 : Int)]⟩ : Array Int).length ≤ j → j < 3 →
        (opIndex (⟨[(0 : Int)]⟩ : Array Int) 3).2.data_[j]? = Option.some default) ∧
      Option.some (opIndex (⟨[(0 : Int)]⟩ : Array Int) 3).1 =
        (opIndex (⟨[(0 : Int)]⟩ : Array Int) 3).2.data_[3]? ∧
      (∀ v, (opIndexWrite (⟨[(0 : Int)]⟩ : Array Int) 3 v).data_[3]? = Option.some v)) :=
  ⟨by decide, C4_opIndex_auto_extends Int ⟨[(0 : Int)]⟩ 3 (by decide)⟩

/-- C5 counterexample: an indexed read at index 10 of the ten-element test
fixture does not fail with an `IndexError` and does not leave the length
unchanged: the single `operator[]` auto-extends the sequence to length 11
and returns the default-constructed value 0. -/
theorem C5_read_extends_counterexample :
    (opIndex arr10 10).2.length = 11 ∧ (opIndex arr10 10).1 = 0 :=
  ⟨by decide, by decide⟩

/-- C5 amended: the code has a single indexing operator serving reads and
writes alike; in the default configuration any access at `i ≥ length`
auto-extends the sequence to length `i + 1` and yields a
default-constructed value, raising no error, and with
`INTOLERANT_TO_OUT_OF_RANGE_INDEXES` defined the access is an out-of-bounds
vector access (undefined behavior), not an `IndexError`. -/
theorem C5_indexing_no_read_error (T : Type) [Inhabited T] (a : Array T) (i : Nat)
    (h : a.length ≤ i) :
    (opIndex a i).2.length = i + 1 ∧
    (opIndex a i).1 = default ∧
    opIndexIntolerant a i = Option.none := by
  have h' : a.data_.length ≤ i := h
  obtain ⟨hdata, hval⟩ := opIndex_extend_data a i h'
  refine ⟨?_, hval, ?_⟩
  · show (opIndex a i).2.data_.length = i + 1
    rw [hdata, List.length_append, List.length_replicate]
    omega
  · unfold opIndexIntolerant
    rw [if_neg (by omega)]

/-- Witness for the amended C5 at the fixture `[0,...,9]`, index 10. -/
theorem C5_indexing_no_read_error_witness :
    arr10.length ≤ 10 ∧
    ((opIndex arr10 10).2.length = 10 + 1 ∧
      (opIndex arr10 10).1 = default ∧
      opIndexIntolerant arr10 10 = Option.none) :=
  ⟨by decide, C5_indexing_no_read_error Int arr10 10 (by decide)⟩

/-- C6: the no-initial `reduce` seeds the fold with the element at index 0
and folds left-to-right from index 1; on the fixture `[0,...,9]` with the
default summation callback it returns 45. -/
theorem C6_reduce_seed_is_element_zero :
    (∀ (T : Type) (x : T) (l : List T) (f : T → T → T),
      reduce1 ⟨x :: l⟩ f = Option.some (l.foldl f x)) ∧
    reduce1 arr10 (fun x y => x + y) = Option.some 45 := by
  constructor
  · intro T x l f
    simp [reduce1, reduce2]
  · rfl

/-- C7: `push(v)` increases the length by exactly 1 and an immediate `pop()`
returns `v` and restores the prior state; symmetrically `unshift(v)`
followed by `shift()` returns `v` and restores the prior state. -/
theorem C7_push_pop_unshift_shift_inverse (T : Type) (a : Array T) (v : T) :
    (push a v).length = a.length + 1 ∧
    pop (push a v) = Option.some (v, a) ∧
    (unshift a v).length = a.length + 1 ∧
    shift (unshift a v) = Option.some (v, a) := by
  refine ⟨?_, ?_, rfl, rfl⟩
  · show (a.data_ ++ [v]).length = a.data_.length + 1
    simp
  · unfold pop push
    dsimp only
    rw [List.getLast?_concat, List.dropLast_concat]

/-- C8: `some(condition)` is true iff the condition holds for at least one
element; on the fixture `[0,...,9]`, `some(x == 8)` is true and
`some(x == 11)` is false. (`some` is modelled from the spec: its definition
is absent from src/array.hpp; only the test suite calls it.) -/
theorem C8_some_exists_element :
    (∀ (T : Type) (a : Array T) (c : T → Bool),
      Array.some a c = true ↔ ∃ x ∈ a.data_, c x = true) ∧
    Array.some arr10 (fun x => x == 8) = true ∧
    Array.some arr10 (fun x => x == 11) = false :=
  ⟨fun _ _ _ => List.any_eq_true, by decide, by decide⟩

/-- C9: a `slice` call leaves the source sequence unchanged: the receiver
state after the call equals the state before it, hence has the same length
and the same element at every position. -/
theorem C9_slice_const_receiver (T : Type) (a : Array T) (b e : Int) :
    (sliceCall a b e).2 = a ∧
    (sliceCall a b e).2.length = a.length ∧
    ∀ i : Nat, (sliceCall a b e).2.data_[i]? = a.data_[i]? :=
  ⟨rfl, rfl, fun _ => rfl⟩

/-- C10: no `slice` call on a nonempty sequence can produce a copy of the
whole sequence: every result, including that of the defaulted one-argument
form, is strictly shorter than the source, because a normalized `end` bound
never reaches `length` (an `end` argument equal to `length` is rejected as
out of range). -/
theorem C10_slice_never_full_copy (T : Type) (a : Array T) (b e : Int)
    (h : 1 ≤ a.length) :
    (slice a b e).length < a.length ∧ (slice1 a b).length < a.length :=
  ⟨slice_length_lt a b e h, slice_length_lt a b 0 h⟩

/-- Witness for C10 at the fixture `[0,...,9]` with `begin = 1`,
`end = -1`. -/
theorem C10_slice_never_full_copy_witness :
    1 ≤ arr10.length ∧
    ((slice arr10 1 (-1)).length < arr10.length ∧
      (slice1 arr10 1).length < arr10.length) :=
  ⟨by decide, C10_slice_never_full_copy Int arr10 1 (-1) (by decide)⟩

end Array

end js4cpp
